import Mathlib

/-!
Verification of the CoC7 actor importer (src/module/apps/actor-importer.js).
The importer's string manipulation is modelled over lists of characters;
the per-language regular expression templates live in
actor-importer-regexp.js, which is not part of the sources, so pattern
matchers are modelled from the spec as explicit parameters where needed.
-/

namespace ActorImporter

/-- The whitespace characters relevant to the importer's inputs (JS \s on
these texts). -/
def isWs (c : Char) : Bool := c = ' ' || c = '\n' || c = '\r' || c = '\t'

/-- JS String.prototype.trimStart. -/
def trimLeft (cs : List Char) : List Char := cs.dropWhile isWs

/-- JS String.prototype.trimEnd. -/
def trimRight (cs : List Char) : List Char := (cs.reverse.dropWhile isWs).reverse

/-- JS String.prototype.trim. -/
def jsTrim (cs : List Char) : List Char := trimRight (trimLeft cs)

/-- JS String.prototype.replace with a plain-string pattern: replaces the
first occurrence of p by r; when p is empty JS inserts r at the start. -/
def replaceFirst (cs p r : List Char) : List Char :=
  match cs with
  | [] => if p = [] then r else []
  | c :: rest =>
      if p.isPrefixOf (c :: rest) then r ++ (c :: rest).drop p.length
      else c :: replaceFirst rest p r

/-- One removeFromText step of check (actor-importer.js line 130):
this.text = this.text.replace(check[0].trim(), '\n').trim().
none stands for a failed match, which leaves the buffer untouched. -/
def checkRemoveFromText (text : List Char) : Option (List Char) → List Char
  | none => text
  | some src => jsTrim (replaceFirst text (jsTrim src) ['\n'])

/-- The damage-bonus field of the parsed record: a string as parsed, or the
number convert7E rewrites the two legacy literal expressions to. -/
inductive DbVal where
  | str (s : String)
  | num (n : Int)
deriving DecidableEq

/-- The fields of the parsed record that convert7E and needsConversion read:
the eight characteristics and the damage bonus (absent fields are none). -/
structure Creature where
  str : Option Int := none
  con : Option Int := none
  siz : Option Int := none
  dex : Option Int := none
  app : Option Int := none
  int : Option Int := none
  pow : Option Int := none
  edu : Option Int := none
  db : Option DbVal := none
deriving DecidableEq

/-- convert7E on one of the seven plain characteristics: multiply by 5
(actor-importer.js lines 1115-1119). -/
def convertChar (v : Option Int) : Option Int := v.map (· * 5)

/-- convert7E on education (actor-importer.js lines 1120-1129). -/
def convertEdu (e : Int) : Int :=
  if e ≤ 18 then e * 5 else if e ≤ 26 then e + 90 - 18 else 99

/-- convert7E on the damage bonus (actor-importer.js lines 1130-1136):
the two legacy literals become fixed negative integers. -/
def convertDb : Option DbVal → Option DbVal
  | some (DbVal.str s) =>
      if s = "-1d4" then some (DbVal.num (-1))
      else if s = "-1d6" then some (DbVal.num (-2))
      else some (DbVal.str s)
  | v => v

/-- convert7E (actor-importer.js lines 1111-1141). -/
def convert7E (c : Creature) : Creature :=
  { c with
    str := convertChar c.str, con := convertChar c.con, siz := convertChar c.siz,
    dex := convertChar c.dex, app := convertChar c.app, int := convertChar c.int,
    pow := convertChar c.pow,
    edu := c.edu.map convertEdu,
    db := convertDb c.db }

/-- The characteristic fields in the order the needsConversion loop visits
them (actor-importer.js lines 1045-1054). -/
def charList (c : Creature) : List (Option Int) :=
  [c.str, c.con, c.siz, c.dex, c.app, c.int, c.pow, c.edu]

/-- needsConversion (actor-importer.js lines 1043-1063): start from true and
flip to false whenever a defined characteristic exceeds 30. -/
def needsConversion (c : Creature) : Bool :=
  (charList c).foldl
    (fun acc v =>
      match v with
      | some x => if x > 30 then false else acc
      | none => acc) true

/-- The conversion guard of createActor (actor-importer.js lines 1086-1090). -/
def shouldConvert (mode : String) (c : Creature) : Bool :=
  (mode == "coc-guess" && needsConversion c) || mode == "coc-convert"

/-- A concrete 6th-edition record: characteristic 15, education 20, legacy
damage bonus. -/
def sample6E : Creature := { str := some 15, edu := some 20, db := some (DbVal.str "-1d4") }

/-- A concrete 6th-edition record with education 27. -/
def sample6Edu27 : Creature := { edu := some 27 }

/-- One range band of a weapon record (actor-importer.js lines 271-284). -/
structure RangeBand where
  value : Int
  damage : String
deriving DecidableEq

/-- The three range bands of a weapon record. -/
structure RangeBands where
  normal : RangeBand
  long : RangeBand
  extreme : RangeBand
deriving DecidableEq

/-- JS damage.split('/') (actor-importer.js line 261). -/
def splitSlash (s : String) : List String :=
  (s.data.splitOn '/').map String.mk

/-- isShotgun: the damage expression splits on '/' into exactly three parts
(actor-importer.js line 262). -/
def isShotgunOf (damage : String) : Bool := (splitSlash damage).length == 3

/-- The range-band layout built from the slash-split damage expression
(actor-importer.js lines 261-285): three parts yield bands at 10/20/50 with
the parts assigned positionally; otherwise the normal band at distance 0
holds damages[0] and the long and extreme bands are empty. -/
def buildRange (damage : String) : RangeBands :=
  match splitSlash damage with
  | [d1, d2, d3] => ⟨⟨10, d1⟩, ⟨20, d2⟩, ⟨50, d3⟩⟩
  | ds => ⟨⟨0, ds.headD ""⟩, ⟨0, ""⟩, ⟨0, ""⟩⟩

/-- One optional trailing '.' of cleanString's trailing regex, on the
reversed string. -/
def dropDotOpt : List Char → List Char
  | '.' :: r => r
  | r => r

/-- Remove the longest suffix matching \s*\.?\s*\.?$ (actor-importer.js
line 45), by maximal munch on the reversed string: the reversed suffix reads
as an optional '.', whitespace, an optional '.', whitespace. -/
def stripTrailJunk (cs : List Char) : List Char :=
  ((dropDotOpt ((dropDotOpt cs.reverse).dropWhile isWs)).dropWhile isWs).reverse

/-- cleanString (actor-importer.js lines 41-46): newline and carriage-return
characters become spaces, leading whitespace is stripped, and a trailing
\s*\.?\s*\.? run is removed. -/
def cleanString (s : String) : String :=
  String.mk (stripTrailJunk ((s.data.map
    (fun c => if c = '\n' ∨ c = '\r' then ' ' else c)).dropWhile isWs))

/-- State of the translateRoll scanner: outside any digit run; inside a
fresh digit run (a candidate n1); holding a pending dice-shorthand letter
that followed a fresh digit run; inside the digit run a match just consumed
as n2, which cannot anchor a new match. -/
inductive TRState where
  | outside
  | fresh
  | pend (c : Char)
  | consumed

def isDigit (c : Char) : Bool := '0' ≤ c && c ≤ '9'

/-- Case-insensitive comparison with the locale dice-shorthand letter (the
regex of translateRoll carries the i flag, actor-importer.js lines 58-61). -/
def eqDice (d c : Char) : Bool := c.toLower = d.toLower

/-- The global regex replace of translateRoll (actor-importer.js line 62):
every (?<n1>\d+)D(?<n2>\d+), with D the locale dice-shorthand letter,
becomes n1Dn2, and scanning resumes after the greedy n2 digits. -/
def trGo (d : Char) : TRState → List Char → List Char
  | TRState.pend p, [] => [p]
  | _, [] => []
  | TRState.outside, c :: cs =>
      if isDigit c then c :: trGo d TRState.fresh cs
      else c :: trGo d TRState.outside cs
  | TRState.fresh, c :: cs =>
      if isDigit c then c :: trGo d TRState.fresh cs
      else if eqDice d c then trGo d (TRState.pend c) cs
      else c :: trGo d TRState.outside cs
  | TRState.pend p, c :: cs =>
      if isDigit c then 'D' :: c :: trGo d TRState.consumed cs
      else p :: c :: trGo d TRState.outside cs
  | TRState.consumed, c :: cs =>
      if isDigit c then c :: trGo d TRState.consumed cs
      else c :: trGo d TRState.outside cs

/-- translateRoll (actor-importer.js lines 55-66) for a defined locale
dice-shorthand letter d. -/
def translateRoll (d : Char) (s : String) : String :=
  String.mk (trGo d TRState.outside s.data)

/-- Modelled from the spec: the per-language db, dbNone, armor, armorNone,
attacksPerRound and attacksPerRoundNone field templates come from
actor-importer-regexp.js, which is not among the sources. Each field
template is modelled as the capture its match against the current buffer
saves (none when the pattern is absent or does not match), and each locale
"none" sentinel as a test on a captured string. -/
structure AttrPatterns where
  dbMatch : Option String
  dbNone : String → Bool
  armorMatch : Option String
  armorNone : String → Bool
  aprMatch : Option String
  aprNone : String → Bool

/-- The three attribute fields of the parsed record governed by the
absent/"none" defaulting policy. -/
structure AttrState where
  db : Option String := none
  armor : Option String := none
  attacksPerRound : Option String := none
deriving DecidableEq

/-- The damage-bonus resolution of parseCharacter (actor-importer.js lines
493-504): the capture, defaulted to "0" when the pattern did not match or
the capture matches the dbNone sentinel, then dice-shorthand-translated. -/
def resolveDb (p : AttrPatterns) (d : Char) : Option String :=
  (match p.dbMatch with
   | none => some "0"
   | some v => if p.dbNone v then some "0" else some v).map (translateRoll d)

/-- The armor resolution (actor-importer.js lines 507-517): same defaulting
policy as the damage bonus, without dice translation. -/
def resolveArmor (p : AttrPatterns) : Option String :=
  match p.armorMatch with
  | none => some "0"
  | some v => if p.armorNone v then some "0" else some v

/-- The attacks-per-round resolution (actor-importer.js lines 525-535): the
field is untouched when the pattern never matched, and becomes "0" only when
the pattern matched and the capture matches the aprNone sentinel. -/
def resolveApr (p : AttrPatterns) (prev : Option String) : Option String :=
  match p.aprMatch with
  | none => prev
  | some v => if p.aprNone v then some "0" else some v

/-- The attribute-defaulting slice of parseCharacter (actor-importer.js
lines 493-535). The build, movement, luck and sanity-loss extractions in
between touch none of these three fields. -/
def parseAttributes (p : AttrPatterns) (d : Char) (st : AttrState) : AttrState :=
  { st with
    db := resolveDb p d
    armor := resolveArmor p
    attacksPerRound := resolveApr p st.attacksPerRound }

/-- Modelled from the spec: the weaponDodge and weapon patterns live in
actor-importer-regexp.js, which is not among the sources. The combat span
is modelled as the list of the entries those patterns match in order: a
dodge entry with its percentage, a weapon entry whose percentage capture is
optional, or a line of text neither pattern matches. -/
inductive CombatToken where
  | dodgeTok (name : String) (pct : Int)
  | weaponTok (name : String) (pct : Option Int) (damage : String)
  | lineTok (s : String)
deriving DecidableEq

/-- The lastPercent state of processCombat (actor-importer.js lines 169 and
223-230): JS false before any weapon stated a percentage, a number once one
did, JS true when a weapon matched without a fresh percentage capture. -/
inductive LastPercent where
  | unset
  | num (n : Int)
  | carry
deriving DecidableEq

/-- A skill entry pushed by processCombat's dodge branch (actor-importer.js
lines 178-185). -/
structure SkillEntry where
  name : String
  value : Int
  push : Bool
deriving DecidableEq

/-- A weapon record pushed by processCombat (actor-importer.js lines
263-296): the skill id is the lastPercent value at push time (a number, or
JS true meaning carry-over). -/
structure WeaponEntry where
  name : String
  skillId : LastPercent
  range : RangeBands
  shotgun : Bool
  rngd : Bool
  melee : Bool
  ahdb : Bool
  addb : Bool
deriving DecidableEq

/-- Modelled from the spec: the weapon-category keyword lists (handgun,
rifle, smb, machineGun, launched; actor-importer.js lines 196-222) and the
keys of the half/full damage-bonus stripping loop (keys.halfdb and
keys.fulldb, lines 234-260) are locale data from actor-importer-regexp.js,
which is not among the sources. They are modelled as a ranged-name
classifier, a damage-bonus stripping function returning the stripped damage
expression with the ahdb and addb flags, and the locale dice-shorthand
letter. -/
structure CombatEnv where
  rangedName : String → Bool
  stripDb : String → String × Bool × Bool
  dice : Char

/-- The loop state of processCombat: the remaining combat text (as tokens),
the carry-over percentage, and the accumulated skills and attacks. -/
structure CombatState where
  tokens : List CombatToken
  lastPercent : LastPercent
  skills : List SkillEntry
  attacks : List WeaponEntry

/-- One body of the do-while loop of processCombat (actor-importer.js lines
171-301): try dodge first, then weapon (requiring a percentage capture
unless a carry-over percentage is set), else consume one line of text.
Returns the new state and whether the dodge and weapon patterns matched. -/
def combatStep (env : CombatEnv) (st : CombatState) : CombatState × Bool × Bool :=
  match st.tokens with
  | CombatToken.dodgeTok nm pct :: rest =>
      ({ st with
          tokens := rest
          skills := st.skills ++ [⟨cleanString nm, pct, false⟩] }, true, false)
  | CombatToken.weaponTok nm pct dmg :: rest =>
      if st.lastPercent = LastPercent.unset ∧ pct = none then
        ({ st with tokens := rest }, false, false)
      else
        let name := cleanString nm
        let damage0 := translateRoll env.dice (cleanString dmg)
        let isRanged := env.rangedName name
        let lp := match pct with
          | some n => LastPercent.num n
          | none => LastPercent.carry
        let stripped := env.stripDb damage0
        let shot := isShotgunOf stripped.1
        ({ st with
            tokens := rest
            lastPercent := lp
            attacks := st.attacks ++
              [⟨name, lp, buildRange stripped.1, shot, isRanged || shot,
                !(isRanged || shot), stripped.2.1, stripped.2.2⟩] }, false, true)
  | CombatToken.lineTok _ :: rest => ({ st with tokens := rest }, false, false)
  | [] => (st, false, false)

/-- What one run of processCombat's loop produces: the final state, the
remaining iteration budget, the number of loop bodies executed, and whether
the dodge and weapon patterns matched in the last body. -/
structure RunOut where
  state : CombatState
  rem : Nat
  iters : Nat
  lastDodge : Bool
  lastWeapon : Bool

/-- The do-while loop of processCombat (actor-importer.js lines 171-302):
the budget is decremented, the body runs, and the loop repeats while budget
remains and the body matched a dodge or a weapon or text remains. -/
def combatRun (env : CombatEnv) : Nat → CombatState → RunOut
  | 0, st => ⟨st, 0, 0, false, false⟩
  | f + 1, st =>
      let r := combatStep env st
      if 0 < f ∧ (r.2.1 || r.2.2 || !r.1.tokens.isEmpty) = true then
        let out := combatRun env f r.1
        { out with iters := out.iters + 1 }
      else ⟨r.1, f, 1, r.2.1, r.2.2⟩

/-- What processCombat leaves behind: the accumulated skill and weapon
entries and whether the budget-exhaustion warning was emitted. -/
structure CombatResult where
  skills : List SkillEntry
  attacks : List WeaponEntry
  warned : Bool
deriving DecidableEq

/-- processCombat (actor-importer.js lines 159-309): empty combat text
returns at once; otherwise the loop runs with a budget of 40 iterations and
the warning is emitted when the budget reaches zero (lines 303-308). -/
def processCombat (env : CombatEnv) (tokens : List CombatToken) : CombatResult :=
  if tokens.isEmpty then ⟨[], [], false⟩
  else
    let out := combatRun env 40 ⟨tokens, LastPercent.unset, [], []⟩
    ⟨out.state.skills, out.state.attacks, out.rem == 0⟩

/-- The combat environment of the C2 example: no category keyword occurs in
the three weapon names and no damage-bonus term occurs in their (empty)
damage expressions. -/
def rifleEnv : CombatEnv where
  rangedName := fun _ => false
  stripDb := fun s => (s, false, false)
  dice := 'd'

/-- The combat span "Rifle 45%, Pistol, Knife 30%" as weapon matches: the
first and third carry a percentage capture, the second does not. -/
def rifleTokens : List CombatToken :=
  [CombatToken.weaponTok "Rifle" (some 45) "",
   CombatToken.weaponTok "Pistol" none "",
   CombatToken.weaponTok "Knife" (some 30) ""]

/-- The negative lookbehind (?<!\([^)]+) of the spell-splitting regex
(actor-importer.js line 362), evaluated over the reversed prefix before a
comma: it holds when a '(' occurs at distance at least two before the comma
with no ')' in between. -/
def lbScan : List Char → Nat → Bool
  | [], _ => false
  | c :: rest, k =>
      if c = ')' then false
      else if c = '(' ∧ 1 ≤ k then true
      else lbScan rest (k + 1)

/-- JS text.split(/(?<!\([^)]+),/) (actor-importer.js line 362): split at
every comma whose lookbehind fails, carrying the reversed full prefix and
the reversed current fragment. -/
def splitCommaNP : List Char → List Char → List Char → List (List Char)
  | [], _, cur => [cur.reverse]
  | c :: rest, pre, cur =>
      if c = ',' ∧ lbScan pre 0 = false then
        cur.reverse :: splitCommaNP rest (c :: pre) []
      else splitCommaNP rest (c :: pre) (c :: cur)

/-- JS text.replace(/([\n\r]+)/g, ' '): every maximal run of newline and
carriage-return characters becomes a single space. -/
def collapseNlGo : Bool → List Char → List Char
  | _, [] => []
  | inRun, c :: cs =>
      if c = '\n' ∨ c = '\r' then
        (if inRun then [] else [' ']) ++ collapseNlGo true cs
      else c :: collapseNlGo false cs

def collapseNl (cs : List Char) : List Char := collapseNlGo false cs

/-- breaks = text.split(/\.\r?\n/); if breaks.length is over 1 the text
becomes breaks[0] (actor-importer.js lines 358-361): keep the prefix before
the first sentence-ending line break, the whole text when there is none. -/
def truncAtBreak : List Char → List Char
  | [] => []
  | '.' :: '\n' :: _ => []
  | '.' :: '\r' :: '\n' :: _ => []
  | c :: cs => c :: truncAtBreak cs

/-- The spell-list construction of processSpells (actor-importer.js lines
354-370): empty text appends nothing; otherwise the text is truncated at the
first sentence-ending line break, line breaks are collapsed to spaces, the
text is split on commas not protected by the lookbehind, and each fragment
is cleaned and appended. The removal of the consumed span from the owning
buffer on line 363 adds no spell entry. -/
def processSpells (text : String) : List String :=
  if jsTrim text.data = [] then []
  else
    (splitCommaNP (collapseNl (truncAtBreak text.data)) [] []).map
      (fun f => cleanString (String.mk f))

/-- Parenthesis nesting depth just before position i of a string: the sense
in which a character at i is "inside parentheses". -/
def parenDepthAt (cs : List Char) (i : Nat) : Int :=
  (cs.take i).foldl
    (fun d c => if c = '(' then d + 1 else if c = ')' then d - 1 else d) 0

/-- One successful match of a header-related pattern: the matched source
substring, the capture the field saves, and the match index. -/
structure HMatch where
  source : String
  capture : String
  index : Nat

/-- Modelled from the spec: the name, age and occupation patterns and the
eleven core characteristic patterns scanned by parseCharacter (str, con,
siz, int, pow, dex, app, edu, san, hp, mp) come from
actor-importer-regexp.js, which is not among the sources; each is modelled
as the match its exec against a given text yields, and the localized
default name models localize('CoC7.ImportedUnnamedCharacter'). -/
structure HeaderEnv where
  chars : List (String → Option HMatch)
  nameM : String → Option HMatch
  ageM : String → Option HMatch
  occM : String → Option HMatch
  defaultName : String

/-- The header-relevant outcome of parseCharacter: the remaining buffer and
the name, age and occupation fields of the parsed record. -/
structure HeaderOut where
  text : String
  name : String
  age : Option String
  occupation : Option String
deriving DecidableEq

/-- The characteristic scan of parseCharacter (actor-importer.js lines
385-442): each matching check removes its matched span from the buffer and
lowers the minimum matched index. -/
def charScan : List (String → Option HMatch) → String → Nat → String × Nat
  | [], text, minv => (text, minv)
  | m :: rest, text, minv =>
      match m text with
      | none => charScan rest text minv
      | some hm =>
          charScan rest
            (String.mk (checkRemoveFromText text.data (some hm.source.data)))
            (min minv hm.index)

/-- header.substr(0, header.indexOf('.') + 1) for a header that contains a
full stop (actor-importer.js line 468). -/
def takeUpToDotIncl (cs : List Char) : List Char :=
  cs.takeWhile (fun c => c ≠ '.') ++ ['.']

/-- The occupation candidate: the residual header, cut after the first full
stop when one occurs (actor-importer.js lines 465-469). -/
def occRaw (header : List Char) : List Char :=
  if header.contains '.' then takeUpToDotIncl header else header

/-- JS .replace(/,$/, '') (actor-importer.js line 473). -/
def stripTrailComma (cs : List Char) : List Char :=
  match cs.reverse with
  | ',' :: r => r.reverse
  | _ => cs

/-- occupation.replace(/([\n\r]+)/g, ' ').trim().replace(/,$/, '')
(actor-importer.js lines 470-473). -/
def occClean (header : List Char) : List Char :=
  stripTrailComma (jsTrim (collapseNl (occRaw header)))

/-- The fixup template ^(?<age>\d+),(?<occupation>.+)$ (actor-importer.js
lines 485-487): leading digits, a comma, then a non-empty remainder holding
no line break (the dot of the template does not match newlines). -/
def splitAgeOcc (cs : List Char) : Option (List Char × List Char) :=
  match cs.takeWhile isDigit, cs.dropWhile isDigit with
  | [], _ => none
  | ds, ',' :: r =>
      if r ≠ [] ∧ r.all (fun c => c ≠ '\n' ∧ c ≠ '\r') then some (ds, r)
      else none
  | _, _ => none

/-- The occupation-age fixup (actor-importer.js lines 481-492): when an
occupation was derived but no age, a leading "digits," prefix of the
occupation is split off as the age. -/
def occFixup (o : HeaderOut) : HeaderOut :=
  match o.occupation, o.age with
  | some occ, none =>
      match splitAgeOcc occ.data with
      | some (ds, r) =>
          { o with
              age := some (String.mk ds)
              occupation := some (String.mk (jsTrim r)) }
      | none => o
  | _, _ => o

/-- The header slice of parseCharacter (actor-importer.js lines 384-492,
after normalization): compute the minimum matched characteristic index (the
buffer length when nothing matched), cut the header there, extract name
(default when the name pattern fails), age and occupation from it, fall
back to the residual header as the occupation, and run the age-occupation
fixup. -/
def parseHeader (env : HeaderEnv) (text0 : String) : HeaderOut :=
  let scanned := charScan env.chars text0 text0.data.length
  let text1 := scanned.1
  let minv := scanned.2
  if 0 < minv then
    let header0 := String.mk (text1.data.take minv)
    let afterName :=
      match env.nameM header0 with
      | none => (env.defaultName, header0, text1)
      | some hm =>
          (hm.capture,
           String.mk (replaceFirst header0.data hm.source.data ['\n']),
           String.mk (checkRemoveFromText text1.data (some hm.source.data)))
    let pname := afterName.1
    let header1 := afterName.2.1
    let text2 := afterName.2.2
    let afterAge :=
      match env.ageM header1 with
      | none => ((none : Option String), header1, text2)
      | some hm =>
          (some hm.capture,
           String.mk (replaceFirst header1.data hm.source.data ['\n']),
           String.mk (checkRemoveFromText text2.data (some hm.source.data)))
    let page := afterAge.1
    let header2 := afterAge.2.1
    let text3 := afterAge.2.2
    match env.occM header2 with
    | some hm =>
        occFixup
          { text := String.mk (checkRemoveFromText text3.data (some hm.source.data))
            name := pname
            age := page
            occupation := some hm.capture }
    | none =>
        if jsTrim header2.data ≠ [] then
          occFixup
            { text := String.mk (replaceFirst text3.data (jsTrim (occRaw header2.data)) ['\n'])
              name := pname
              age := page
              occupation := some (String.mk (occClean header2.data)) }
        else
          occFixup { text := text3, name := pname, age := page, occupation := none }
  else
    occFixup { text := text1, name := env.defaultName, age := none, occupation := none }

/-- A pattern environment in which no pattern matches anything: the eleven
characteristic patterns and the name, age and occupation patterns all
fail. -/
def noMatchEnv : HeaderEnv where
  chars := List.replicate 11 (fun _ => none)
  nameM := fun _ => none
  ageM := fun _ => none
  occM := fun _ => none
  defaultName := "Unnamed"

/-- The numeric saveKeys loop of check (actor-importer.js lines 132-145)
under type asNumber: each named capture is coerced by the given number
parser (modelling the JS Number builtin) and written to the record only
when the coercion succeeds; the record is a map from field name to the
recorded number. -/
def saveKeysNum (toNum : String → Option Int) :
    List (String × String) → (String → Option Int) → String → Option Int
  | [], parsed => parsed
  | (k, v) :: rest, parsed =>
      match toNum v with
      | some n => saveKeysNum toNum rest (fun q => if q = k then some n else parsed q)
      | none => saveKeysNum toNum rest parsed

/-- Two captures of one match, the first numeric and the second not. -/
def numGroups : List (String × String) := [("hp", "12"), ("mp", "abc")]

/-- A number parser accepting exactly the capture "12". -/
def toNumSample : String → Option Int := fun s => if s = "12" then some 12 else none

/-- The record before the saveKeys loop: nothing recorded. -/
def emptyParsed : String → Option Int := fun _ => none

theorem dropWhile_len_le (p : Char → Bool) :
    ∀ cs : List Char, (cs.dropWhile p).length ≤ cs.length
  | [] => le_refl 0
  | c :: cs => by
      rw [List.dropWhile_cons]
      by_cases h : p c
      · simp only [if_pos h]
        exact le_trans (dropWhile_len_le p cs) (Nat.le_succ _)
      · simp [if_neg h]

theorem trimLeft_length_le (cs : List Char) : (trimLeft cs).length ≤ cs.length :=
  dropWhile_len_le isWs cs

theorem trimRight_length_le (cs : List Char) : (trimRight cs).length ≤ cs.length := by
  have h := dropWhile_len_le isWs cs.reverse
  simpa [trimRight] using h

theorem jsTrim_length_le (cs : List Char) : (jsTrim cs).length ≤ cs.length :=
  le_trans (trimRight_length_le _) (trimLeft_length_le cs)

theorem replaceFirst_nil_pat (cs r : List Char) : replaceFirst cs [] r = r ++ cs := by
  cases cs <;> simp [replaceFirst]

theorem replaceFirst_length_le (cs p r : List Char) (hp : p ≠ [])
    (hr : r.length ≤ p.length) : (replaceFirst cs p r).length ≤ cs.length := by
  induction cs with
  | nil => simp [replaceFirst, hp]
  | cons c rest ih =>
      by_cases h : p.isPrefixOf (c :: rest)
      · have hpre : p <+: c :: rest := List.isPrefixOf_iff_prefix.mp h
        have hlen : p.length ≤ (c :: rest).length := hpre.length_le
        simp only [replaceFirst, if_pos h, List.length_append, List.length_drop]
        omega
      · simp only [replaceFirst, if_neg h, List.length_cons]
        omega

theorem jsTrim_newline_cons (cs : List Char) :
    (jsTrim ('\n' :: cs)).length ≤ cs.length := by
  have h1 : trimLeft ('\n' :: cs) = trimLeft cs := by
    simp [trimLeft, List.dropWhile, isWs]
  calc (jsTrim ('\n' :: cs)).length = (trimRight (trimLeft cs)).length := by
        rw [jsTrim, h1]
    _ ≤ (trimLeft cs).length := trimRight_length_le _
    _ ≤ cs.length := trimLeft_length_le cs

/-- C9: the field extractor's removeFromText step never lengthens the text
buffer, whether the pattern matched (the trimmed matched span is replaced by
a newline and the buffer re-trimmed) or not (the buffer is untouched). -/
theorem checkRemoveFromText_length_le (text : List Char) (m : Option (List Char)) :
    (checkRemoveFromText text m).length ≤ text.length := by
  cases m with
  | none => simp [checkRemoveFromText]
  | some src =>
      simp only [checkRemoveFromText]
      by_cases h : jsTrim src = []
      · rw [h, replaceFirst_nil_pat]
        exact jsTrim_newline_cons text
      · exact le_trans (jsTrim_length_le _)
          (replaceFirst_length_le text (jsTrim src) ['\n'] h
            (by cases hs : jsTrim src with
                | nil => exact absurd hs h
                | cons a l => simp))

/-- C1 counterexample: running convert7E on a record with education 20 yields
92, not the 100 the claim states (the 19-26 tier adds 72; only values at most
18 are multiplied by 5). -/
theorem convert7E_edu20_ne_100 :
    (convert7E sample6E).edu = some 92 ∧ (convert7E sample6E).edu ≠ some 100 := by
  decide

/-- C1 amended: characteristic 15 becomes 75, education 20 becomes 92
(the 19-26 tier maps linearly onto 91-98), education 27 becomes 99, and the
legacy damage-bonus string "-1d4" becomes the integer -1. -/
theorem convert7E_sample_values :
    (convert7E sample6E).str = some 75 ∧
    (convert7E sample6E).edu = some 92 ∧
    (convert7E sample6Edu27).edu = some 99 ∧
    (convert7E sample6E).db = some (DbVal.num (-1)) := by
  decide

theorem needsConversion_foldl (l : List (Option Int)) (acc : Bool) :
    (l.foldl
      (fun acc v =>
        match v with
        | some x => if x > 30 then false else acc
        | none => acc) acc) =
    (acc && l.all (fun v =>
      match v with
      | some x => decide (x ≤ 30)
      | none => true)) := by
  induction l generalizing acc with
  | nil => simp
  | cons v l ih =>
      rw [List.foldl_cons, ih, List.all_cons]
      cases v with
      | none => simp
      | some x =>
          by_cases h : x > 30
          · simp only [if_pos h]
            have : decide (x ≤ 30) = false := by simpa using h
            simp [this]
          · simp only [if_neg h]
            have : decide (x ≤ 30) = true := by simpa using Int.not_lt.mp h
            simp [this, Bool.and_assoc]

/-- C10: under the auto-detect mode ('coc-guess'), the 6th-to-7th-edition
conversion is applied exactly when every defined characteristic among
str, con, siz, dex, app, int, pow, edu is at most 30; a record with no
defined characteristic is always converted (the condition is vacuous). -/
theorem shouldConvert_guess_iff (c : Creature) :
    shouldConvert "coc-guess" c = true ↔
      ∀ v ∈ charList c, ∀ x : Int, v = some x → x ≤ 30 := by
  have h1 : ("coc-guess" == "coc-guess") = true := by decide
  have h2 : ("coc-guess" == "coc-convert") = false := by decide
  rw [shouldConvert, h1, h2, Bool.true_and, Bool.or_false,
    needsConversion, needsConversion_foldl, Bool.true_and, List.all_eq_true]
  constructor
  · intro h v hv x hx
    have := h v hv
    rw [hx] at this
    simpa using this
  · intro h v hv
    cases hveq : v with
    | none => simp
    | some x =>
        have := h v hv x hveq
        simpa using this

/-- C5 counterexample: a damage expression with one '/' (two parts) is not a
shotgun, and the single band at distance 0 holds only the first part, not the
whole expression. -/
theorem buildRange_two_parts :
    buildRange "1D6/2D6" = ⟨⟨0, "1D6"⟩, ⟨0, ""⟩, ⟨0, ""⟩⟩ ∧
    ("1D6" : String) ≠ "1D6/2D6" := by
  decide

/-- C5 amended: a damage expression splitting on '/' into exactly three parts
yields a shotgun with bands at 10/20/50 and the parts assigned positionally;
any other number of parts yields a non-shotgun with a single band at distance
0 holding the first slash-delimited part (the whole expression only when it
contains no slash), with empty long and extreme band damage. -/
theorem buildRange_layout (damage : String) :
    ((splitSlash damage).length = 3 →
      isShotgunOf damage = true ∧
      ∀ d1 d2 d3, splitSlash damage = [d1, d2, d3] →
        buildRange damage = ⟨⟨10, d1⟩, ⟨20, d2⟩, ⟨50, d3⟩⟩) ∧
    ((splitSlash damage).length ≠ 3 →
      isShotgunOf damage = false ∧
      buildRange damage = ⟨⟨0, (splitSlash damage).headD ""⟩, ⟨0, ""⟩, ⟨0, ""⟩⟩) := by
  constructor
  · intro h3
    constructor
    · simp [isShotgunOf, h3]
    · intro d1 d2 d3 heq
      rw [buildRange, heq]
  · intro hne
    constructor
    · simp only [isShotgunOf, beq_iff_eq]
      exact decide_eq_false hne
    · rw [buildRange]
      cases hl : splitSlash damage with
      | nil => simp
      | cons a t =>
          cases t with
          | nil => simp
          | cons b t2 =>
              cases t2 with
              | nil => simp
              | cons c t3 =>
                  cases t3 with
                  | nil => exact absurd (by rw [hl]; rfl) hne
                  | cons d t4 => simp

theorem translateRoll_zero (d : Char) : translateRoll d "0" = "0" := rfl

/-- C4: after attribute parsing, the damage-bonus and armor fields each
resolve to "0" when their pattern is absent or the capture matches the
locale "none" sentinel; attacks-per-round resolves to "0" only when its
pattern matched and the capture matches the sentinel, and is left exactly
as it was (absent) when its pattern never matched. -/
theorem parseAttributes_defaults (p : AttrPatterns) (d : Char) (st : AttrState) :
    ((p.dbMatch = none ∨ (∃ v, p.dbMatch = some v ∧ p.dbNone v = true)) →
        (parseAttributes p d st).db = some "0") ∧
    ((p.armorMatch = none ∨ (∃ v, p.armorMatch = some v ∧ p.armorNone v = true)) →
        (parseAttributes p d st).armor = some "0") ∧
    (p.aprMatch = none →
        (parseAttributes p d st).attacksPerRound = st.attacksPerRound) ∧
    (∀ v, p.aprMatch = some v → p.aprNone v = true →
        (parseAttributes p d st).attacksPerRound = some "0") := by
  refine ⟨?_, ?_, ?_, ?_⟩
  · rintro (h | ⟨v, hv, hn⟩)
    · simp [parseAttributes, resolveDb, h, translateRoll_zero]
    · simp [parseAttributes, resolveDb, hv, hn, translateRoll_zero]
  · rintro (h | ⟨v, hv, hn⟩)
    · simp [parseAttributes, resolveArmor, h]
    · simp [parseAttributes, resolveArmor, hv, hn]
  · intro h
    simp [parseAttributes, resolveApr, h]
  · intro v hv hn
    simp [parseAttributes, resolveApr, hv, hn]

theorem combatRun_iters_le (env : CombatEnv) :
    ∀ (f : Nat) (st : CombatState), (combatRun env f st).iters ≤ f
  | 0, _ => le_refl 0
  | f + 1, st => by
      simp only [combatRun]
      split
      · exact Nat.succ_le_succ (combatRun_iters_le env f _)
      · exact Nat.succ_le_succ (Nat.zero_le f)

theorem combatRun_exit (env : CombatEnv) :
    ∀ (f : Nat) (st : CombatState), 0 < (combatRun env f st).rem →
      (combatRun env f st).lastDodge = false ∧
      (combatRun env f st).lastWeapon = false ∧
      (combatRun env f st).state.tokens = []
  | 0, _ => by
      intro h
      simp [combatRun] at h
  | f + 1, st => by
      simp only [combatRun]
      split
      · exact combatRun_exit env f _
      · intro hrem
        rename_i hcond
        rw [not_and_or] at hcond
        rcases hcond with hf | hb
        · exact absurd hrem hf
        · have hb2 := eq_false_of_ne_true hb
          simp only [Bool.or_eq_false_iff, Bool.not_eq_false'] at hb2
          refine ⟨hb2.1.1, hb2.1.2, ?_⟩
          simpa [List.isEmpty_iff] using hb2.2

/-- C7: processCombat's loop executes at most 40 bodies; it exits with
budget remaining only when the last body matched no dodge, matched no
weapon, and left no text; and when the budget is exhausted on non-empty
combat text the warning is emitted and the skill and weapon entries
accumulated so far are still returned. -/
theorem processCombat_bounded (env : CombatEnv) (tokens : List CombatToken) :
    ((combatRun env 40 ⟨tokens, LastPercent.unset, [], []⟩).iters ≤ 40) ∧
    (0 < (combatRun env 40 ⟨tokens, LastPercent.unset, [], []⟩).rem →
      (combatRun env 40 ⟨tokens, LastPercent.unset, [], []⟩).lastDodge = false ∧
      (combatRun env 40 ⟨tokens, LastPercent.unset, [], []⟩).lastWeapon = false ∧
      (combatRun env 40 ⟨tokens, LastPercent.unset, [], []⟩).state.tokens = []) ∧
    (tokens ≠ [] →
      (combatRun env 40 ⟨tokens, LastPercent.unset, [], []⟩).rem = 0 →
      (processCombat env tokens).warned = true ∧
      (processCombat env tokens).skills =
        (combatRun env 40 ⟨tokens, LastPercent.unset, [], []⟩).state.skills ∧
      (processCombat env tokens).attacks =
        (combatRun env 40 ⟨tokens, LastPercent.unset, [], []⟩).state.attacks) := by
  refine ⟨combatRun_iters_le env 40 _, combatRun_exit env 40 _, ?_⟩
  intro hne hrem
  have hie : tokens.isEmpty = false := by
    cases tokens with
    | nil => exact absurd rfl hne
    | cons a l => rfl
  refine ⟨?_, ?_, ?_⟩
  · simp [processCombat, hie, hrem]
  · simp [processCombat, hie]
  · simp [processCombat, hie]

/-- C2 counterexample: on the combat text "Rifle 45%, Pistol, Knife 30%" the
second weapon's recorded skill id is the carry-over sentinel (JS true), not
the number 45; only the downstream item linking resolves the sentinel to the
previous weapon's skill. -/
theorem processCombat_carry_sentinel :
    ((processCombat rifleEnv rifleTokens).attacks.map WeaponEntry.skillId) =
      [LastPercent.num 45, LastPercent.carry, LastPercent.num 30] ∧
    LastPercent.carry ≠ LastPercent.num 45 := by
  decide

/-- C2 amended: the combat text "Rifle 45%, Pistol, Knife 30%" produces
three weapon records in order; the first records percentage 45, the second
records the carry-over sentinel (45 staying the carried percentage that
anchors its match), and the third overrides to 30. -/
theorem processCombat_carry_over :
    (processCombat rifleEnv rifleTokens).attacks.map
        (fun w => (w.name, w.skillId)) =
      [("Rifle", LastPercent.num 45), ("Pistol", LastPercent.carry),
       ("Knife", LastPercent.num 30)] := by
  decide

/-- C6 counterexample: in "Spell ((1), 2)" the comma at index 10 sits inside
the parentheses opened at index 6, yet the spell splitter splits there,
because the character just before the comma is ')' and the lookbehind
requires only non-')' characters between a '(' and the comma: a comma inside
parentheses can act as a split point. -/
theorem processSpells_split_inside_parens :
    "Spell ((1), 2)".data[10]? = some ',' ∧
    0 < parenDepthAt "Spell ((1), 2)".data 10 ∧
    processSpells "Spell ((1), 2)" = ["Spell ((1)", "2)"] ∧
    processSpells "Spell ((1), 2)" ≠ ["Spell ((1), 2)"] := by
  decide

/-- C6 amended: the span "Contact Deity (1 magic point), Summon, Bind
Monster" yields exactly three spell strings with the first parenthetical
intact; in general a comma is protected only when a '(' precedes it with at
least one intervening character and no ')' in between, so commas directly
after '(' or preceded by a ')' inside the parentheses still split. -/
theorem processSpells_parenthetical :
    processSpells "Contact Deity (1 magic point), Summon, Bind Monster" =
      ["Contact Deity (1 magic point)", "Summon", "Bind Monster"] ∧
    (processSpells "Contact Deity (1 magic point), Summon, Bind Monster").length = 3 := by
  decide

theorem charScan_nomatch :
    ∀ (ms : List (String → Option HMatch)) (text : String) (minv : Nat),
      (∀ m ∈ ms, m text = none) → charScan ms text minv = (text, minv)
  | [], _, _ => fun _ => rfl
  | m :: rest, text, minv => fun h => by
      have hm := h m (List.mem_cons_self m rest)
      simp only [charScan, hm]
      exact charScan_nomatch rest text minv fun m' hm' => h m' (List.mem_cons_of_mem m hm')

/-- C3 counterexample: on the non-empty text "xyzzy", which no
characteristic pattern and no header pattern matches anywhere, parseCharacter
does assign the default name, but the header (which spans the whole text) is
still recorded as the occupation, so a header-derived field is set. -/
theorem parseHeader_sets_occupation :
    (parseHeader noMatchEnv "xyzzy").name = "Unnamed" ∧
    (parseHeader noMatchEnv "xyzzy").occupation = some "xyzzy" ∧
    (parseHeader noMatchEnv "xyzzy").occupation ≠ none := by
  decide

/-- C3 amended: on non-empty text with no characteristic match the minimum
matched index stays the text length, so the whole text becomes the header
and header extraction still runs: when the name, age and occupation patterns
also fail and the header is not blank, the name is the localized default and
the cleaned residual header becomes the occupation (subject to the
age-occupation fixup). -/
theorem parseHeader_residual_occupation (env : HeaderEnv) (text : String)
    (hchars : ∀ m ∈ env.chars, m text = none)
    (hname : env.nameM text = none)
    (hage : env.ageM text = none)
    (hocc : env.occM text = none)
    (hne : text.data ≠ [])
    (hblank : jsTrim text.data ≠ []) :
    parseHeader env text =
      occFixup
        { text := String.mk (replaceFirst text.data (jsTrim (occRaw text.data)) ['\n'])
          name := env.defaultName
          age := none
          occupation := some (String.mk (occClean text.data)) } := by
  have hscan := charScan_nomatch env.chars text text.data.length hchars
  have hpos : 0 < text.data.length := List.length_pos.mpr hne
  have hmk : String.mk text.data = text := rfl
  simp only [parseHeader, hscan, List.take_length, hmk, if_pos hpos, hname, hage, hocc]
  rw [if_pos hblank]

/-- Witness for the amended C3 theorem at the concrete environment where no
pattern matches and the concrete text "xyzzy". -/
theorem parseHeader_residual_occupation_inst :
    parseHeader noMatchEnv "xyzzy" =
      occFixup
        { text := String.mk (replaceFirst "xyzzy".data (jsTrim (occRaw "xyzzy".data)) ['\n'])
          name := noMatchEnv.defaultName
          age := none
          occupation := some (String.mk (occClean "xyzzy".data)) } :=
  parseHeader_residual_occupation noMatchEnv "xyzzy"
    (fun m hm => by
      have he : m = fun _ => none := List.eq_of_mem_replicate hm
      rw [he])
    rfl rfl rfl (by decide) (by decide)

theorem saveKeysNum_not_mem (toNum : String → Option Int) :
    ∀ (groups : List (String × String)) (parsed : String → Option Int) (k : String),
      k ∉ groups.map Prod.fst → saveKeysNum toNum groups parsed k = parsed k
  | [], _, _ => fun _ => rfl
  | (k0, v0) :: rest, parsed, k => fun hk => by
      have hk0 : k ≠ k0 := by
        intro h
        exact hk (by simp [h])
      have hkr : k ∉ rest.map Prod.fst := fun h => hk (by simp [h])
      cases hv : toNum v0 with
      | some n =>
          simp only [saveKeysNum, hv]
          rw [saveKeysNum_not_mem toNum rest _ k hkr]
          simp [hk0]
      | none =>
          simp only [saveKeysNum, hv]
          exact saveKeysNum_not_mem toNum rest parsed k hkr

/-- C8: in a numeric field extraction, a named capture whose value the
number parser rejects is silently omitted: its key is left exactly as it was
in the record (no default is written), the loop is a total function (no
exception path), and captures of the same match that do parse are still
recorded. -/
theorem saveKeysNum_drops_invalid (toNum : String → Option Int)
    (groups : List (String × String)) (parsed : String → Option Int)
    (hnd : (groups.map Prod.fst).Nodup) :
    (∀ k v, (k, v) ∈ groups → toNum v = none →
        saveKeysNum toNum groups parsed k = parsed k) ∧
    (∀ k v n, (k, v) ∈ groups → toNum v = some n →
        saveKeysNum toNum groups parsed k = some n) := by
  induction groups generalizing parsed with
  | nil =>
      exact ⟨fun k v h => absurd h (List.not_mem_nil _),
             fun k v n h => absurd h (List.not_mem_nil _)⟩
  | cons p0 rest ih =>
      obtain ⟨k0, v0⟩ := p0
      rw [List.map_cons, List.nodup_cons] at hnd
      obtain ⟨hk0nr, hndr⟩ := hnd
      constructor
      · intro k v hmem hv
        rcases List.mem_cons.mp hmem with heq | hmemr
        · injection heq with h1 h2
          subst h1
          subst h2
          simp only [saveKeysNum, hv]
          exact saveKeysNum_not_mem toNum rest parsed k hk0nr
        · have hkk0 : k ≠ k0 := by
            intro h
            subst h
            exact hk0nr (by simpa using List.mem_map_of_mem Prod.fst hmemr)
          cases hv0 : toNum v0 with
          | some n0 =>
              simp only [saveKeysNum, hv0]
              rw [(ih _ hndr).1 k v hmemr hv]
              simp [hkk0]
          | none =>
              simp only [saveKeysNum, hv0]
              exact (ih parsed hndr).1 k v hmemr hv
      · intro k v n hmem hv
        rcases List.mem_cons.mp hmem with heq | hmemr
        · injection heq with h1 h2
          subst h1
          subst h2
          simp only [saveKeysNum, hv]
          rw [saveKeysNum_not_mem toNum rest _ k hk0nr]
          simp
        · cases hv0 : toNum v0 with
          | some n0 =>
              simp only [saveKeysNum, hv0]
              exact (ih _ hndr).2 k v n hmemr hv
          | none =>
              simp only [saveKeysNum, hv0]
              exact (ih parsed hndr).2 k v n hmemr hv

/-- Witness for the C8 theorem: with the two captures hp = "12" and
mp = "abc" of one match and a parser accepting only "12", the invalid mp is
left unrecorded while hp is recorded as 12. -/
theorem saveKeysNum_drops_invalid_inst :
    saveKeysNum toNumSample numGroups emptyParsed "mp" = none ∧
    saveKeysNum toNumSample numGroups emptyParsed "hp" = some 12 :=
  ⟨(saveKeysNum_drops_invalid toNumSample numGroups emptyParsed (by decide)).1
      "mp" "abc" (by decide) (by decide),
   (saveKeysNum_drops_invalid toNumSample numGroups emptyParsed (by decide)).2
      "hp" "12" 12 (by decide) (by decide)⟩

end ActorImporter
